import Mathlib

/-!
Verification of the EcoGuard cleanup task engine (src/models/cleanup.py,
src/models/report.py, src/routes/cleanup.py) via a shallow embedding.

Conventions of the embedding:
* Python `datetime.now().isoformat()` timestamps are modelled as `Nat`
  values; every operation takes the current time `now` as a parameter.
* Team `rating` is a Python float; it is modelled as `ℚ` (the floats the
  program stores and compares are ordinary decimal values, ordered as the
  rationals they denote).
* JSON dictionaries with a fixed key set are modelled as structures whose
  fields are exactly the emitted keys.
* `random`-based id generation is modelled by passing the fresh id as a
  parameter.
* The rewards ledger (`RewardsManager.award_points`) lives outside the
  task/team collections and is not part of the modelled state.
-/

namespace EcoGuard

/-- The fields of the embedded pollution-report dictionary that the cleanup
engine reads (`cleanup["pollution_report"]["score"]` and
`["reporter_email"]`); the dictionary itself is passed through verbatim by
`to_dict`/`from_dict`. -/
structure PollutionReport where
  score : Nat
  reporter_email : String
deriving DecidableEq

/-- `Report` from src/models/report.py: one pollution submission.  The
constructor sets `timestamp` to the current time. -/
structure Report where
  filename : String
  latitude : String
  longitude : String
  location_name : String
  score : Nat
  analysis : String
  reporter_name : String
  reporter_email : String
  points : Nat
  timestamp : Nat
deriving DecidableEq

/-- The dictionary produced by `Report.to_dict` (exactly the emitted keys). -/
structure ReportD where
  filename : String
  latitude : String
  longitude : String
  location_name : String
  score : Nat
  analysis : String
  reporter_name : String
  reporter_email : String
  points : Nat
  timestamp : Nat
deriving DecidableEq

/-- `Report.to_dict`. -/
def Report.to_dict (r : Report) : ReportD :=
  ⟨r.filename, r.latitude, r.longitude, r.location_name, r.score,
   r.analysis, r.reporter_name, r.reporter_email, r.points, r.timestamp⟩

/-- `Report.from_dict`: builds the instance through the constructor, which
sets `timestamp := datetime.now()` (the `now` parameter); the stored
`timestamp` key of the dictionary is never read back. -/
def Report.from_dict (now : Nat) (d : ReportD) : Report :=
  ⟨d.filename, d.latitude, d.longitude, d.location_name, d.score,
   d.analysis, d.reporter_name, d.reporter_email, d.points, now⟩

/-- `CleanupReport` from src/models/cleanup.py: a cleanup task.  The final
two fields (`verification_analysis`, `cleanup_score`) are keys added to the
stored dictionary only by the route handler `verify_cleanup`; instances
built by the class constructor or `from_dict` never carry them
(`[]` / `none` here). -/
structure CleanupReport where
  report_id : String
  pollution_report : PollutionReport
  status : String
  assigned_team : Option String
  assigned_date : Option Nat
  start_date : Option Nat
  completion_date : Option Nat
  cleanup_notes : String
  verification_photos : List String
  cleanup_points : Nat
  created_at : Nat
  updated_at : Nat
  verification_analysis : List Nat
  cleanup_score : Option ℚ
deriving DecidableEq

/-- The dictionary produced by `CleanupReport.to_dict` (exactly the twelve
emitted keys). -/
structure CleanupReportD where
  report_id : String
  pollution_report : PollutionReport
  status : String
  assigned_team : Option String
  assigned_date : Option Nat
  start_date : Option Nat
  completion_date : Option Nat
  cleanup_notes : String
  verification_photos : List String
  cleanup_points : Nat
  created_at : Nat
  updated_at : Nat
deriving DecidableEq

/-- `CleanupReport.to_dict`. -/
def CleanupReport.to_dict (c : CleanupReport) : CleanupReportD :=
  ⟨c.report_id, c.pollution_report, c.status, c.assigned_team,
   c.assigned_date, c.start_date, c.completion_date, c.cleanup_notes,
   c.verification_photos, c.cleanup_points, c.created_at, c.updated_at⟩

/-- `CleanupReport.from_dict`: the constructor defaults every mutable field
and stamps `created_at`/`updated_at` with the current time, but `from_dict`
then overwrites each of them from the dictionary, so the result does not
depend on the current time. -/
def CleanupReport.from_dict (d : CleanupReportD) : CleanupReport :=
  ⟨d.report_id, d.pollution_report, d.status, d.assigned_team,
   d.assigned_date, d.start_date, d.completion_date, d.cleanup_notes,
   d.verification_photos, d.cleanup_points, d.created_at, d.updated_at,
   [], none⟩

/-- The `CleanupReport.__init__` constructor (status defaults to
`"pending"` at every call site modelled here). -/
def CleanupReport.new (now : Nat) (report_id : String)
    (pollution_report : PollutionReport) : CleanupReport :=
  ⟨report_id, pollution_report, "pending", none, none, none, none, "", [],
   0, now, now, [], none⟩

/-- `CleanupTeam` from src/models/cleanup.py. -/
structure CleanupTeam where
  team_id : String
  name : String
  leader_email : String
  members : List String
  status : String
  current_task : Option String
  total_cleanups : Nat
  total_points : Nat
  rating : ℚ
  created_at : Nat
  last_activity : Nat
deriving DecidableEq

/-- The dictionary produced by `CleanupTeam.to_dict`. -/
structure CleanupTeamD where
  team_id : String
  name : String
  leader_email : String
  members : List String
  status : String
  current_task : Option String
  total_cleanups : Nat
  total_points : Nat
  rating : ℚ
  created_at : Nat
  last_activity : Nat
deriving DecidableEq

/-- `CleanupTeam.to_dict`. -/
def CleanupTeam.to_dict (t : CleanupTeam) : CleanupTeamD :=
  ⟨t.team_id, t.name, t.leader_email, t.members, t.status, t.current_task,
   t.total_cleanups, t.total_points, t.rating, t.created_at,
   t.last_activity⟩

/-- `CleanupTeam.from_dict`: every constructor default (including the two
timestamps) is overwritten from the dictionary. -/
def CleanupTeam.from_dict (d : CleanupTeamD) : CleanupTeam :=
  ⟨d.team_id, d.name, d.leader_email, d.members, d.status, d.current_task,
   d.total_cleanups, d.total_points, d.rating, d.created_at,
   d.last_activity⟩

/-- The `CleanupTeam.__init__` constructor. -/
def CleanupTeam.new (now : Nat) (team_id name leader_email : String)
    (members : List String) : CleanupTeam :=
  ⟨team_id, name, leader_email, members, "available", none, 0, 0, 5, now,
   now⟩

/-- The persistent state seen by `CleanupManager`: the task collection
(`cleanups.json`) and the team collection (`teams.json`). -/
structure ManagerState where
  cleanups : List CleanupReport
  teams : List CleanupTeam
deriving DecidableEq

/-- In-place mutation of the first record matched by `p` inside a loaded
collection (Python finds the record with `next(...)` and mutates the dict
object inside the list before saving the whole list back). -/
def updateFirst (p : α → Bool) (f : α → α) : List α → List α
  | [] => []
  | x :: xs => if p x then f x :: xs else x :: updateFirst p f xs

/-- Python tuple comparison `(a.rating, a.total_cleanups) >
(b.rating, b.total_cleanups)` used by `max(..., key=...)` in
`auto_assign_team`. -/
def keyGtb (a b : CleanupTeam) : Bool :=
  decide (b.rating < a.rating) ||
    (decide (a.rating = b.rating) && decide (b.total_cleanups < a.total_cleanups))

/-- Python `max(x :: xs, key=lambda t: (t.rating, t.total_cleanups))`:
left-to-right scan keeping the current element on ties (the first maximal
element wins). -/
def maxByKey (x : CleanupTeam) (xs : List CleanupTeam) : CleanupTeam :=
  xs.foldl (fun best t => if keyGtb t best then t else best) x

/-- `CleanupManager._calculate_cleanup_points`:
`25 + pollution_report["score"] // 10`. -/
def calculate_cleanup_points (cleanup : CleanupReport) : Nat :=
  25 + cleanup.pollution_report.score / 10

/-- The team-release block shared verbatim by the `CLEANED` branches of
`update_cleanup_status` and `submit_cleanup_verification`: the team with
the given id becomes available, drops its current task, and has its
cumulative counters incremented. -/
def releaseTeam (now : Nat) (points : Nat) (tid : String)
    (teams : List CleanupTeam) : List CleanupTeam :=
  updateFirst (fun t => t.team_id == tid)
    (fun t => { t with
        status := "available", current_task := none,
        total_cleanups := t.total_cleanups + 1,
        total_points := t.total_points + points,
        last_activity := now }) teams

/-- `CleanupManager.auto_assign_team`.  Returns the selected team id (or
`none`) together with the new state.  When no cleanup matches or no team
is available, nothing is written. -/
def auto_assign_team (now : Nat) (report_id : String) (s : ManagerState) :
    Option String × ManagerState :=
  match s.cleanups.find? (fun c => c.report_id == report_id) with
  | none => (none, s)
  | some _ =>
    match s.teams.filter (fun t => t.status == "available") with
    | [] => (none, s)
    | t :: ts =>
      let best := maxByKey t ts
      let cleanups := updateFirst (fun c => c.report_id == report_id)
        (fun c => { c with
            assigned_team := some best.team_id,
            assigned_date := some now, status := "in_progress",
            updated_at := now }) s.cleanups
      let teams := updateFirst (fun tm => tm.team_id == best.team_id)
        (fun tm => { tm with
            status := "busy", current_task := some report_id,
            last_activity := now }) s.teams
      (some best.team_id, ⟨cleanups, teams⟩)

/-- `CleanupManager.create_cleanup_report`: append a fresh pending task
(the generated id is the `report_id` parameter) and immediately attempt
auto-assignment. -/
def create_cleanup_report (now : Nat) (report_id : String)
    (pollution_report : PollutionReport) (s : ManagerState) : ManagerState :=
  let s1 : ManagerState :=
    ⟨s.cleanups ++ [CleanupReport.new now report_id pollution_report],
     s.teams⟩
  (auto_assign_team now report_id s1).2

/-- `CleanupManager.create_team`: `members or [leader_email]` defaults an
empty member list to the leader alone. -/
def create_team (now : Nat) (team_id name leader_email : String)
    (members : List String) (s : ManagerState) : ManagerState :=
  ⟨s.cleanups,
   s.teams ++ [CleanupTeam.new now team_id name leader_email
     (if members.isEmpty then [leader_email] else members)]⟩

/-- `CleanupManager.update_cleanup_status`.  `photos` defaults to `None`
in the source and is only `extend`ed when non-empty; appending a possibly
empty list is extensionally the same. -/
def update_cleanup_status (now : Nat) (report_id status notes : String)
    (photos : List String) (s : ManagerState) : Bool × ManagerState :=
  match s.cleanups.find? (fun c => c.report_id == report_id) with
  | none => (false, s)
  | some c0 =>
    let c1 : CleanupReport :=
      { c0 with
          status := status, cleanup_notes := notes, updated_at := now,
          verification_photos := c0.verification_photos ++ photos }
    let c2 : CleanupReport :=
      if status == "in_progress" && c0.start_date.isNone then
        { c1 with start_date := some now }
      else if status == "cleaned" then
        { c1 with
            completion_date := some now,
            cleanup_points := calculate_cleanup_points c1 }
      else
        c1
    let teams : List CleanupTeam :=
      if status == "cleaned" then
        match c1.assigned_team with
        | some tid => releaseTeam now (calculate_cleanup_points c1) tid s.teams
        | none => s.teams
      else
        s.teams
    (true,
     ⟨updateFirst (fun c => c.report_id == report_id) (fun _ => c2)
        s.cleanups, teams⟩)

/-- The JSON result dictionary returned by `submit_cleanup_verification`
(keys absent from a given return are `none`). -/
structure VerifyResult where
  success : Bool
  message : String
  status : Option String
  points_awarded : Option Nat
  score : Option Int
deriving DecidableEq

/-- `CleanupManager.submit_cleanup_verification`.  The membership check
runs only when the task has an assigned team; `cleanup_score <= 30` is
the acceptance test. -/
def submit_cleanup_verification (now : Nat)
    (report_id team_email notes : String)
    (verification_photos : List String) (cleanup_score : Option Int)
    (s : ManagerState) : VerifyResult × ManagerState :=
  match s.cleanups.find? (fun c => c.report_id == report_id) with
  | none => (⟨false, "Cleanup report not found", none, none, none⟩, s)
  | some c0 =>
    let authFail : Bool :=
      match c0.assigned_team with
      | some tid =>
        match s.teams.find? (fun t => t.team_id == tid) with
        | none => true
        | some tm => !(tm.members.contains team_email)
      | none => false
    if authFail then
      (⟨false, "Unauthorized: You are not assigned to this cleanup task",
        none, none, none⟩, s)
    else
      let c1 : CleanupReport :=
        { c0 with
            cleanup_notes := notes,
            verification_photos := verification_photos,
            updated_at := now }
      match cleanup_score with
      | some sc =>
        if sc ≤ 30 then
          let c2 : CleanupReport :=
            { c1 with
                status := "cleaned", completion_date := some now,
                cleanup_points := calculate_cleanup_points c1 }
          let teams : List CleanupTeam :=
            match c1.assigned_team with
            | some tid => releaseTeam now c2.cleanup_points tid s.teams
            | none => s.teams
          (⟨true, "Cleanup verified successfully! Task completed.",
            some "cleaned", some c2.cleanup_points, none⟩,
           ⟨updateFirst (fun c => c.report_id == report_id) (fun _ => c2)
              s.cleanups, teams⟩)
        else
          let c2 : CleanupReport :=
            { c1 with
                status := "in_progress",
                cleanup_notes := c1.cleanup_notes ++
                  "\n[VERIFICATION FAILED] Score: " ++ toString sc ++
                  ". Cleanup incomplete, task continues." }
          (⟨false, "Cleanup verification failed. Task continues.",
            some "in_progress", none, some sc⟩,
           ⟨updateFirst (fun c => c.report_id == report_id) (fun _ => c2)
              s.cleanups, s.teams⟩)
      | none =>
        (⟨true, "Verification submitted successfully", none, none, none⟩,
         ⟨updateFirst (fun c => c.report_id == report_id) (fun _ => c1)
            s.cleanups, s.teams⟩)

/-- Outcome of a route handler in src/routes/cleanup.py (a flash message
plus redirect in the source). -/
inductive RouteOutcome
  | notFound
  | noTeamAssigned
  | teamMissing
  | notMember
  | noPhotos
  | notAvailable
  | accepted
  | insufficient
deriving DecidableEq

/-- The manual-assignment route `assign_team` (src/routes/cleanup.py):
requires the chosen team to be available, but never checks whether the
task is already assigned to another team. -/
def assign_team_route (now : Nat) (report_id team_id : String)
    (s : ManagerState) : RouteOutcome × ManagerState :=
  match s.cleanups.find? (fun c => c.report_id == report_id),
        s.teams.find? (fun t => t.team_id == team_id) with
  | some _, some tm =>
    if tm.status == "available" then
      let cleanups := updateFirst (fun c => c.report_id == report_id)
        (fun c => { c with
            assigned_team := some team_id,
            assigned_date := some now, status := "in_progress",
            updated_at := now }) s.cleanups
      let teams := updateFirst (fun t => t.team_id == team_id)
        (fun t => { t with
            status := "busy", current_task := some report_id,
            last_activity := now }) s.teams
      (.accepted, ⟨cleanups, teams⟩)
    else
      (.notAvailable, s)
  | _, _ => (.notFound, s)

/-- The POST branch of the `verify_cleanup` route.  `scored` pairs each
saved photo path with the score returned for it by the scoring
collaborator (`result.get("score", 0)`); the acceptance test is the strict
`avg_score < 30` on the arithmetic mean.  Points awarded to members go to
the rewards ledger, outside this state. -/
def verify_cleanup_route (now : Nat) (report_id email notes : String)
    (scored : List (String × Nat)) (s : ManagerState) :
    RouteOutcome × ManagerState :=
  match s.cleanups.find? (fun c => c.report_id == report_id) with
  | none => (.notFound, s)
  | some c0 =>
    match c0.assigned_team with
    | none => (.noTeamAssigned, s)
    | some tid =>
      match s.teams.find? (fun t => t.team_id == tid) with
      | none => (.teamMissing, s)
      | some tm =>
        if !(tm.members.contains email) then (.notMember, s)
        else
          match scored with
          | [] => (.noPhotos, s)
          | _ :: _ =>
            let photo_paths := scored.map Prod.fst
            let results := scored.map Prod.snd
            let avg : ℚ := (results.sum : ℚ) / (results.length : ℚ)
            if avg < 30 then
              let c2 : CleanupReport :=
                { c0 with
                    status := "cleaned", completion_date := some now,
                    updated_at := now, verification_photos := photo_paths,
                    cleanup_notes := notes,
                    verification_analysis := results,
                    cleanup_score := some avg }
              let teams := updateFirst (fun t => t.team_id == tid)
                (fun t => { t with
                    status := "available", current_task := none,
                    last_activity := now,
                    total_cleanups := t.total_cleanups + 1 }) s.teams
              (.accepted,
               ⟨updateFirst (fun c => c.report_id == report_id)
                  (fun _ => c2) s.cleanups, teams⟩)
            else
              let c2 : CleanupReport :=
                { c0 with
                    verification_photos := photo_paths,
                    cleanup_notes := notes,
                    verification_analysis := results,
                    cleanup_score := some avg, updated_at := now }
              (.insufficient,
               ⟨updateFirst (fun c => c.report_id == report_id)
                  (fun _ => c2) s.cleanups, s.teams⟩)

/-- The `mark_completed` route: force-close a task with an assigned,
existing team, free the team and bump its cleanup count (points go to the
rewards ledger only; `cleanup_points` on the task is not written). -/
def mark_completed_route (now : Nat) (report_id : String)
    (s : ManagerState) : RouteOutcome × ManagerState :=
  match s.cleanups.find? (fun c => c.report_id == report_id) with
  | none => (.notFound, s)
  | some c0 =>
    match c0.assigned_team with
    | none => (.noTeamAssigned, s)
    | some tid =>
      match s.teams.find? (fun t => t.team_id == tid) with
      | none => (.teamMissing, s)
      | some _ =>
        let c2 : CleanupReport :=
          { c0 with
              status := "cleaned", completion_date := some now,
              updated_at := now }
        let teams := updateFirst (fun t => t.team_id == tid)
          (fun t => { t with
              status := "available", current_task := none,
              last_activity := now,
              total_cleanups := t.total_cleanups + 1 }) s.teams
        (.accepted,
         ⟨updateFirst (fun c => c.report_id == report_id) (fun _ => c2)
            s.cleanups, teams⟩)

/-- Every state-mutating operation of the engine (manager methods and the
mutating route handlers), with its inputs.  `now` is the wall-clock time
at which the operation runs. -/
inductive Op
  | create (now : Nat) (report_id : String) (pr : PollutionReport)
  | createTeam (now : Nat) (team_id name leader_email : String)
      (members : List String)
  | autoAssign (now : Nat) (report_id : String)
  | updateStatus (now : Nat) (report_id status notes : String)
      (photos : List String)
  | submitVerif (now : Nat) (report_id team_email notes : String)
      (photos : List String) (score : Option Int)
  | assignTeamRoute (now : Nat) (report_id team_id : String)
  | verifyRoute (now : Nat) (report_id email notes : String)
      (scored : List (String × Nat))
  | markCompleted (now : Nat) (report_id : String)

/-- The state transformation each operation performs. -/
def applyOp : Op → ManagerState → ManagerState
  | .create now rid pr, s => create_cleanup_report now rid pr s
  | .createTeam now tid nm le ms, s => create_team now tid nm le ms s
  | .autoAssign now rid, s => (auto_assign_team now rid s).2
  | .updateStatus now rid st nt ph, s =>
      (update_cleanup_status now rid st nt ph s).2
  | .submitVerif now rid em nt ph sc, s =>
      (submit_cleanup_verification now rid em nt ph sc s).2
  | .assignTeamRoute now rid tid, s => (assign_team_route now rid tid s).2
  | .verifyRoute now rid em nt sc, s =>
      (verify_cleanup_route now rid em nt sc s).2
  | .markCompleted now rid, s => (mark_completed_route now rid s).2

/-- Invariant candidate from the spec: a task in status `cleaned` carries a
completion date.  (The spec's full biconditional also covers `verified`.) -/
def cleanedHasDate (s : ManagerState) : Prop :=
  ∀ c ∈ s.cleanups, c.status = "cleaned" → c.completion_date ≠ none

/-- The spec's full biconditional: status `cleaned` or `verified` iff
`completion_date` is set. -/
def statusIffDate (s : ManagerState) : Prop :=
  ∀ c ∈ s.cleanups,
    (c.status = "cleaned" ∨ c.status = "verified") ↔ c.completion_date ≠ none

/-- Team-side invariant: a team is `busy` exactly when it holds a current
task reference. -/
def busyIffTask (s : ManagerState) : Prop :=
  ∀ t ∈ s.teams, t.status = "busy" ↔ t.current_task ≠ none

/-- The spec's full team invariant: additionally, the task referenced by a
busy team names that team as its assignee. -/
def busyBackRef (s : ManagerState) : Prop :=
  ∀ t ∈ s.teams, ∀ c ∈ s.cleanups,
    t.current_task = some c.report_id → c.assigned_team = some t.team_id

/-- Lexicographic "not greater" on the assignment key
`(rating, total_cleanups)`: what it means for a candidate to be at most
the selected team. -/
def keyLE (a b : CleanupTeam) : Prop :=
  a.rating < b.rating ∨
    (a.rating = b.rating ∧ a.total_cleanups ≤ b.total_cleanups)

/-! Concrete fixtures used to exercise the operations on explicit inputs. -/

/-- A pollution report with severity score 82 (the spec's end-to-end
example). -/
def prA : PollutionReport := ⟨82, "bob@example.com"⟩

/-- A busy team `T` currently working task `r1`. -/
def teamT : CleanupTeam :=
  ⟨"T", "Team T", "alice@example.com",
   ["alice@example.com", "carol@example.com"], "busy", some "r1", 3, 40,
   5, 0, 0⟩

/-- An in-progress task `r1` assigned to team `T`, with pre-existing notes
and one pre-existing verification photo. -/
def taskR1 : CleanupReport :=
  ⟨"r1", prA, "in_progress", some "T", some 1, some 1, none, "old notes",
   ["before.jpg"], 0, 0, 1, [], none⟩

/-- One in-progress task worked by one busy team. -/
def st1 : ManagerState := ⟨[taskR1], [teamT]⟩

/-- A pending, unassigned task `r2`. -/
def taskR2 : CleanupReport :=
  ⟨"r2", prA, "pending", none, none, none, none, "", [], 0, 0, 0, [],
   none⟩

/-- The spec's assignment example: available teams A(rating 5, 10
cleanups), B(rating 5, 20 cleanups), C(rating 4, 100 cleanups). -/
def teamA : CleanupTeam :=
  ⟨"A", "Team A", "a@example.com", ["a@example.com", "a2@example.com"],
   "available", none, 10, 0, 5, 0, 0⟩

/-- Team B of the assignment example. -/
def teamB : CleanupTeam :=
  ⟨"B", "Team B", "b@example.com", ["b@example.com", "b2@example.com"],
   "available", none, 20, 0, 5, 0, 0⟩

/-- Team C of the assignment example. -/
def teamC : CleanupTeam :=
  ⟨"C", "Team C", "c@example.com", ["c@example.com", "c2@example.com"],
   "available", none, 100, 0, 4, 0, 0⟩

/-- Pending task `r2` with the three candidate teams of the example. -/
def stABC : ManagerState := ⟨[taskR2], [teamA, teamB, teamC]⟩

/-- Pending task `r2` with no team at all. -/
def stNoTeams : ManagerState := ⟨[taskR2], []⟩

/-- An available second team `U`, used to re-assign an already assigned
task. -/
def teamU : CleanupTeam :=
  ⟨"U", "Team U", "uma@example.com",
   ["uma@example.com", "ned@example.com"], "available", none, 0, 0, 5, 0,
   0⟩

/-- Task `r1` worked by busy team `T` while team `U` stands available. -/
def st2 : ManagerState := ⟨[taskR1], [teamT, teamU]⟩


/-! General lemmas about the list-surgery helper and the selection key. -/

theorem mem_updateFirst {α : Type} {p : α → Bool} {f : α → α}
    {l : List α} {y : α} (h : y ∈ updateFirst p f l) :
    y ∈ l ∨ ∃ x, x ∈ l ∧ y = f x := by
  induction l with
  | nil => simp [updateFirst] at h
  | cons a as ih =>
    by_cases hp : p a
    · simp [updateFirst, hp] at h
      rcases h with h | h
      · exact Or.inr ⟨a, by simp, h⟩
      · exact Or.inl (List.mem_cons_of_mem _ h)
    · simp [updateFirst, hp] at h
      rcases h with h | h
      · exact Or.inl (by simp [h])
      · rcases ih h with h' | ⟨x, hx, hy⟩
        · exact Or.inl (List.mem_cons_of_mem _ h')
        · exact Or.inr ⟨x, List.mem_cons_of_mem _ hx, hy⟩

theorem find?_updateFirst {α : Type} {p : α → Bool} {f : α → α}
    {l : List α} {x : α} (hx : l.find? p = some x) (hf : p (f x) = true) :
    (updateFirst p f l).find? p = some (f x) := by
  induction l with
  | nil => simp at hx
  | cons a as ih =>
    by_cases hp : p a
    · rw [List.find?_cons_of_pos _ hp] at hx
      injection hx with hx
      subst hx
      simp [updateFirst, hp, List.find?_cons_of_pos _ hf]
    · rw [List.find?_cons_of_neg _ hp] at hx
      simp [updateFirst, hp, List.find?_cons_of_neg _ hp, ih hx]

theorem updateFirst_of_not_mem {α : Type} {p : α → Bool} {f : α → α}
    {l : List α} (h : l.find? p = none) : updateFirst p f l = l := by
  induction l with
  | nil => rfl
  | cons a as ih =>
    rw [List.find?_cons] at h
    split at h
    · exact absurd h (by simp)
    · simp_all [updateFirst]

theorem keyLE_refl (a : CleanupTeam) : keyLE a a := Or.inr ⟨rfl, le_refl _⟩

theorem keyLE_trans {a b c : CleanupTeam} (h1 : keyLE a b) (h2 : keyLE b c) :
    keyLE a c := by
  rcases h1 with h1 | ⟨h1e, h1n⟩
  · rcases h2 with h2 | ⟨h2e, _⟩
    · exact Or.inl (lt_trans h1 h2)
    · exact Or.inl (h2e ▸ h1)
  · rcases h2 with h2 | ⟨h2e, h2n⟩
    · exact Or.inl (h1e ▸ h2)
    · exact Or.inr ⟨h1e.trans h2e, le_trans h1n h2n⟩

theorem keyGtb_true {a b : CleanupTeam} (h : keyGtb a b = true) :
    keyLE b a := by
  simp only [keyGtb, Bool.or_eq_true, Bool.and_eq_true, decide_eq_true_eq] at h
  rcases h with h | ⟨he, hn⟩
  · exact Or.inl h
  · exact Or.inr ⟨he.symm, le_of_lt hn⟩

theorem keyGtb_false {a b : CleanupTeam} (h : keyGtb a b = false) :
    keyLE a b := by
  simp only [keyGtb, Bool.or_eq_false_iff, Bool.and_eq_false_iff,
    decide_eq_false_iff_not, not_lt] at h
  obtain ⟨h1, h2⟩ := h
  rcases lt_or_eq_of_le h1 with hlt | heq
  · exact Or.inl hlt
  · rcases h2 with h2 | h2
    · exact absurd heq h2
    · exact Or.inr ⟨heq, h2⟩

theorem maxByKey_mem (x : CleanupTeam) (xs : List CleanupTeam) :
    maxByKey x xs ∈ x :: xs := by
  induction xs generalizing x with
  | nil => simp [maxByKey]
  | cons a as ih =>
    have : maxByKey x (a :: as) = maxByKey (if keyGtb a x then a else x) as := by
      simp [maxByKey, List.foldl_cons]
    rw [this]
    have h := ih (if keyGtb a x then a else x)
    rcases List.mem_cons.1 h with h' | h'
    · rw [h']
      split
      · simp
      · simp
    · simp [h']

theorem maxByKey_le (x : CleanupTeam) (xs : List CleanupTeam) :
    ∀ u ∈ x :: xs, keyLE u (maxByKey x xs) := by
  induction xs generalizing x with
  | nil =>
    intro u hu
    simp at hu
    subst hu
    simp [maxByKey, keyLE_refl]
  | cons a as ih =>
    intro u hu
    have hrw : maxByKey x (a :: as) = maxByKey (if keyGtb a x then a else x) as := by
      simp [maxByKey, List.foldl_cons]
    rw [hrw]
    have hy := ih (if keyGtb a x then a else x)
    have hyx : keyLE x (if keyGtb a x then a else x) := by
      split
      · rename_i hgt
        exact keyGtb_true hgt
      · exact keyLE_refl x
    have hya : keyLE a (if keyGtb a x then a else x) := by
      split
      · exact keyLE_refl a
      · rename_i hgt
        exact keyGtb_false (by simpa using hgt)
    have hself : keyLE (if keyGtb a x then a else x)
        (maxByKey (if keyGtb a x then a else x) as) :=
      hy _ (List.mem_cons_self _ _)
    rcases List.mem_cons.1 hu with h | h
    · exact keyLE_trans (h ▸ hyx) hself
    · rcases List.mem_cons.1 h with h' | h'
      · exact keyLE_trans (h' ▸ hya) hself
      · exact hy u (List.mem_cons_of_mem _ h')


theorem forall_updateFirst {α : Type} {P : α → Prop} {p : α → Bool}
    {f : α → α} {l : List α} (hl : ∀ x ∈ l, P x)
    (hf : ∀ x ∈ l, P (f x)) : ∀ y ∈ updateFirst p f l, P y := by
  intro y hy
  rcases mem_updateFirst hy with h | ⟨x, hx, rfl⟩
  · exact hl y h
  · exact hf x hx

/-- Unfolding of `submit_cleanup_verification` when the task is found, has
an assigned team whose member set contains the submitter, and the score is
at most 30: the task closes and the team is released. -/
theorem submit_accept_eq {now : Nat} {rid email notes : String}
    {photos : List String} {sc : Int} {s : ManagerState}
    {c : CleanupReport} {tid : String} {tm : CleanupTeam}
    (hfind : s.cleanups.find? (fun c' => c'.report_id == rid) = some c)
    (hteam : c.assigned_team = some tid)
    (htm : s.teams.find? (fun t => t.team_id == tid) = some tm)
    (hmem : tm.members.contains email = true)
    (hsc : sc ≤ 30) :
    submit_cleanup_verification now rid email notes photos (some sc) s =
      (⟨true, "Cleanup verified successfully! Task completed.",
        some "cleaned", some (25 + c.pollution_report.score / 10), none⟩,
       ⟨updateFirst (fun c' => c'.report_id == rid)
          (fun _ => { c with
              cleanup_notes := notes, verification_photos := photos,
              updated_at := now, status := "cleaned",
              completion_date := some now,
              cleanup_points := 25 + c.pollution_report.score / 10 })
          s.cleanups,
        releaseTeam now (25 + c.pollution_report.score / 10) tid
          s.teams⟩) := by
  rw [submit_cleanup_verification, hfind]
  simp only [hteam, htm, hmem, Bool.not_true]
  rw [if_neg Bool.false_ne_true, if_pos hsc]
  rfl

/-- Unfolding of `submit_cleanup_verification` in the same situation with
a score strictly above 30: the rejection annotation is appended to the
fresh notes, the status is re-set to `in_progress`, and the team
collection is untouched. -/
theorem submit_reject_eq {now : Nat} {rid email notes : String}
    {photos : List String} {sc : Int} {s : ManagerState}
    {c : CleanupReport} {tid : String} {tm : CleanupTeam}
    (hfind : s.cleanups.find? (fun c' => c'.report_id == rid) = some c)
    (hteam : c.assigned_team = some tid)
    (htm : s.teams.find? (fun t => t.team_id == tid) = some tm)
    (hmem : tm.members.contains email = true)
    (hsc : 30 < sc) :
    submit_cleanup_verification now rid email notes photos (some sc) s =
      (⟨false, "Cleanup verification failed. Task continues.",
        some "in_progress", none, some sc⟩,
       ⟨updateFirst (fun c' => c'.report_id == rid)
          (fun _ => { c with
              cleanup_notes := notes ++ "\n[VERIFICATION FAILED] Score: " ++
                toString sc ++ ". Cleanup incomplete, task continues.",
              verification_photos := photos, updated_at := now,
              status := "in_progress" })
          s.cleanups,
        s.teams⟩) := by
  rw [submit_cleanup_verification, hfind]
  simp only [hteam, htm, hmem, Bool.not_true]
  rw [if_neg Bool.false_ne_true, if_neg (by omega : ¬ sc ≤ 30)]


/-- Unfolding of `submit_cleanup_verification` when the task is found but
the submitter is not a member of the assigned (and existing) team:
explicit rejection, state returned untouched. -/
theorem submit_unauthorized_eq {now : Nat} {rid email notes : String}
    {photos : List String} {sc : Option Int} {s : ManagerState}
    {c : CleanupReport} {tid : String} {tm : CleanupTeam}
    (hfind : s.cleanups.find? (fun c' => c'.report_id == rid) = some c)
    (hteam : c.assigned_team = some tid)
    (htm : s.teams.find? (fun t => t.team_id == tid) = some tm)
    (hmem : tm.members.contains email = false) :
    submit_cleanup_verification now rid email notes photos sc s =
      (⟨false, "Unauthorized: You are not assigned to this cleanup task",
        none, none, none⟩, s) := by
  rw [submit_cleanup_verification, hfind]
  simp only [hteam, htm, hmem, Bool.not_false]
  rw [if_pos trivial]

/-- Unfolding of `submit_cleanup_verification` when the task is found but
its assigned team id resolves to no stored team: also rejected untouched. -/
theorem submit_team_missing_eq {now : Nat} {rid email notes : String}
    {photos : List String} {sc : Option Int} {s : ManagerState}
    {c : CleanupReport} {tid : String}
    (hfind : s.cleanups.find? (fun c' => c'.report_id == rid) = some c)
    (hteam : c.assigned_team = some tid)
    (htm : s.teams.find? (fun t => t.team_id == tid) = none) :
    submit_cleanup_verification now rid email notes photos sc s =
      (⟨false, "Unauthorized: You are not assigned to this cleanup task",
        none, none, none⟩, s) := by
  rw [submit_cleanup_verification, hfind]
  simp only [hteam, htm]
  rw [if_pos trivial]

/-- Unfolding of `submit_cleanup_verification` when the task has no
assigned team: the membership check is skipped entirely and the task is
mutated; with no score the call reports plain success. -/
theorem submit_no_team_eq {now : Nat} {rid email notes : String}
    {photos : List String} {s : ManagerState} {c : CleanupReport}
    (hfind : s.cleanups.find? (fun c' => c'.report_id == rid) = some c)
    (hteam : c.assigned_team = none) :
    submit_cleanup_verification now rid email notes photos none s =
      (⟨true, "Verification submitted successfully", none, none, none⟩,
       ⟨updateFirst (fun c' => c'.report_id == rid)
          (fun _ => { c with
              cleanup_notes := notes, verification_photos := photos,
              updated_at := now }) s.cleanups,
        s.teams⟩) := by
  rw [submit_cleanup_verification, hfind]
  simp only [hteam]
  rw [if_neg Bool.false_ne_true]


/-- Unfolding of `update_cleanup_status` for target status `"cleaned"` on
a found task with an assigned team id: the notes are overwritten, the
photos extended, the completion date stamped, the points computed from
the embedded report's severity, and the team released with both counters
incremented. -/
theorem update_cleaned_eq {now : Nat} {rid notes : String}
    {photos : List String} {s : ManagerState} {c : CleanupReport}
    {tid : String}
    (hfind : s.cleanups.find? (fun c' => c'.report_id == rid) = some c)
    (hteam : c.assigned_team = some tid) :
    update_cleanup_status now rid "cleaned" notes photos s =
      (true,
       ⟨updateFirst (fun c' => c'.report_id == rid)
          (fun _ => { c with
              status := "cleaned", cleanup_notes := notes,
              updated_at := now,
              verification_photos := c.verification_photos ++ photos,
              completion_date := some now,
              cleanup_points := 25 + c.pollution_report.score / 10 })
          s.cleanups,
        releaseTeam now (25 + c.pollution_report.score / 10) tid
          s.teams⟩) := by
  rw [update_cleanup_status, hfind]
  simp only [hteam]
  rfl

/-- Unfolding of `update_cleanup_status` on a found task for an arbitrary
target status: the call always reports success, and the stored task
afterwards carries the requested status, the overwritten notes and the
extended photo list (the branch-specific fields vary). -/
theorem update_found_fields {now : Nat} {rid status notes : String}
    {photos : List String} {s : ManagerState} {c : CleanupReport}
    (hfind : s.cleanups.find? (fun c' => c'.report_id == rid) = some c) :
    (update_cleanup_status now rid status notes photos s).1 = true ∧
    ∃ c', ((update_cleanup_status now rid status notes photos s).2.cleanups.find?
        (fun c' => c'.report_id == rid) = some c' ∧
      c'.status = status ∧ c'.cleanup_notes = notes ∧
      c'.verification_photos = c.verification_photos ++ photos ∧
      c'.updated_at = now) := by
  have hp := List.find?_some hfind
  rw [update_cleanup_status, hfind]
  dsimp only
  refine ⟨rfl, ?_⟩
  by_cases h1 : (status == "in_progress" && c.start_date.isNone) = true
  · rw [if_pos h1]
    refine ⟨_, find?_updateFirst hfind (by simpa using hp), ?_, rfl, rfl, rfl⟩
    simp only [Bool.and_eq_true, beq_iff_eq] at h1
    exact h1.1.symm ▸ rfl
  · rw [if_neg h1]
    by_cases h2 : (status == "cleaned") = true
    · rw [if_pos h2]
      exact ⟨_, find?_updateFirst hfind (by simpa using hp), by
        simp only [beq_iff_eq] at h2
        exact h2.symm ▸ rfl, rfl, rfl, rfl⟩
    · rw [if_neg h2]
      exact ⟨_, find?_updateFirst hfind (by simpa using hp), rfl, rfl, rfl, rfl⟩


/-- Unfolding of `submit_cleanup_verification` for an authorized member
when no score is supplied: notes and photos are stored, nothing else
changes. -/
theorem submit_member_no_score_eq {now : Nat} {rid email notes : String}
    {photos : List String} {s : ManagerState} {c : CleanupReport}
    {tid : String} {tm : CleanupTeam}
    (hfind : s.cleanups.find? (fun c' => c'.report_id == rid) = some c)
    (hteam : c.assigned_team = some tid)
    (htm : s.teams.find? (fun t => t.team_id == tid) = some tm)
    (hmem : tm.members.contains email = true) :
    submit_cleanup_verification now rid email notes photos none s =
      (⟨true, "Verification submitted successfully", none, none, none⟩,
       ⟨updateFirst (fun c' => c'.report_id == rid)
          (fun _ => { c with
              cleanup_notes := notes, verification_photos := photos,
              updated_at := now }) s.cleanups,
        s.teams⟩) := by
  rw [submit_cleanup_verification, hfind]
  simp only [hteam, htm, hmem, Bool.not_true]
  rw [if_neg Bool.false_ne_true]

/-- Unfolding of `submit_cleanup_verification` on an unassigned task with
an accepting score: the task closes but no team is touched. -/
theorem submit_no_team_accept_eq {now : Nat} {rid email notes : String}
    {photos : List String} {sc : Int} {s : ManagerState}
    {c : CleanupReport}
    (hfind : s.cleanups.find? (fun c' => c'.report_id == rid) = some c)
    (hteam : c.assigned_team = none) (hsc : sc ≤ 30) :
    submit_cleanup_verification now rid email notes photos (some sc) s =
      (⟨true, "Cleanup verified successfully! Task completed.",
        some "cleaned", some (25 + c.pollution_report.score / 10), none⟩,
       ⟨updateFirst (fun c' => c'.report_id == rid)
          (fun _ => { c with
              cleanup_notes := notes, verification_photos := photos,
              updated_at := now, status := "cleaned",
              completion_date := some now,
              cleanup_points := 25 + c.pollution_report.score / 10 })
          s.cleanups,
        s.teams⟩) := by
  rw [submit_cleanup_verification, hfind]
  simp only [hteam]
  rw [if_neg Bool.false_ne_true, if_pos hsc]
  rfl

/-- Unfolding of `submit_cleanup_verification` on an unassigned task with
a rejecting score: annotation appended, status forced to `in_progress`. -/
theorem submit_no_team_reject_eq {now : Nat} {rid email notes : String}
    {photos : List String} {sc : Int} {s : ManagerState}
    {c : CleanupReport}
    (hfind : s.cleanups.find? (fun c' => c'.report_id == rid) = some c)
    (hteam : c.assigned_team = none) (hsc : 30 < sc) :
    submit_cleanup_verification now rid email notes photos (some sc) s =
      (⟨false, "Cleanup verification failed. Task continues.",
        some "in_progress", none, some sc⟩,
       ⟨updateFirst (fun c' => c'.report_id == rid)
          (fun _ => { c with
              cleanup_notes := notes ++ "\n[VERIFICATION FAILED] Score: " ++
                toString sc ++ ". Cleanup incomplete, task continues.",
              verification_photos := photos, updated_at := now,
              status := "in_progress" })
          s.cleanups,
        s.teams⟩) := by
  rw [submit_cleanup_verification, hfind]
  simp only [hteam]
  rw [if_neg Bool.false_ne_true, if_neg (by omega : ¬ sc ≤ 30)]


theorem cleanedHasDate_auto (now : Nat) (rid : String) {s : ManagerState}
    (h : cleanedHasDate s) : cleanedHasDate (auto_assign_team now rid s).2 := by
  rcases hfind : s.cleanups.find? (fun c => c.report_id == rid) with _ | c
  · rw [auto_assign_team, hfind]
    exact h
  · rcases hfil : s.teams.filter (fun t => t.status == "available") with _ | ⟨t, ts⟩
    · rw [auto_assign_team, hfind, hfil]
      exact h
    · rw [auto_assign_team, hfind, hfil]
      dsimp only
      intro y hy
      rcases mem_updateFirst hy with hm | ⟨x, hx, rfl⟩
      · exact h y hm
      · intro hcl
        simp at hcl

theorem cleanedHasDate_create (now : Nat) (rid : String)
    (pr : PollutionReport) {s : ManagerState} (h : cleanedHasDate s) :
    cleanedHasDate (create_cleanup_report now rid pr s) := by
  apply cleanedHasDate_auto
  intro y hy
  rcases List.mem_append.1 hy with hm | hm
  · exact h y hm
  · simp at hm
    subst hm
    intro hcl
    simp [CleanupReport.new] at hcl

theorem cleanedHasDate_createTeam (now : Nat) (tid nm le : String)
    (ms : List String) {s : ManagerState} (h : cleanedHasDate s) :
    cleanedHasDate (create_team now tid nm le ms s) := h

theorem cleanedHasDate_update (now : Nat) (rid st nt : String)
    (ph : List String) {s : ManagerState} (h : cleanedHasDate s) :
    cleanedHasDate (update_cleanup_status now rid st nt ph s).2 := by
  rcases hfind : s.cleanups.find? (fun c => c.report_id == rid) with _ | c
  · rw [update_cleanup_status, hfind]
    exact h
  · rw [update_cleanup_status, hfind]
    dsimp only
    intro y hy
    rcases mem_updateFirst hy with hm | ⟨x, hx, rfl⟩
    · exact h y hm
    · by_cases h1 : (st == "in_progress" && c.start_date.isNone) = true
      · rw [if_pos h1]
        intro hcl
        dsimp at hcl
        rw [hcl] at h1
        simp at h1
      · rw [if_neg h1]
        by_cases h2 : (st == "cleaned") = true
        · rw [if_pos h2]
          intro _
          simp
        · rw [if_neg h2]
          intro hcl
          dsimp at hcl
          rw [hcl] at h2
          simp at h2

theorem cleanedHasDate_submit (now : Nat) (rid email nt : String)
    (ph : List String) (sc : Option Int) {s : ManagerState}
    (h : cleanedHasDate s) :
    cleanedHasDate (submit_cleanup_verification now rid email nt ph sc s).2 := by
  rcases hfind : s.cleanups.find? (fun c => c.report_id == rid) with _ | c
  · rw [submit_cleanup_verification, hfind]
    exact h
  · have hc : c ∈ s.cleanups := List.mem_of_find?_eq_some hfind
    rcases hat : c.assigned_team with _ | tid
    · rcases sc with _ | sc
      · rw [submit_no_team_eq hfind hat]
        intro y hy
        rcases mem_updateFirst hy with hm | ⟨x, hx, rfl⟩
        · exact h y hm
        · exact fun hcl => h c hc hcl
      · by_cases hsc : sc ≤ 30
        · rw [submit_no_team_accept_eq hfind hat hsc]
          intro y hy
          rcases mem_updateFirst hy with hm | ⟨x, hx, rfl⟩
          · exact h y hm
          · intro _
            simp
        · rw [submit_no_team_reject_eq hfind hat (by omega)]
          intro y hy
          rcases mem_updateFirst hy with hm | ⟨x, hx, rfl⟩
          · exact h y hm
          · intro hcl
            simp at hcl
    · rcases htm : s.teams.find? (fun t => t.team_id == tid) with _ | tm
      · rw [submit_team_missing_eq hfind hat htm]
        exact h
      · rcases hmem : tm.members.contains email with _ | _
        · rw [submit_unauthorized_eq hfind hat htm hmem]
          exact h
        · rcases sc with _ | sc
          · rw [submit_member_no_score_eq hfind hat htm hmem]
            intro y hy
            rcases mem_updateFirst hy with hm | ⟨x, hx, rfl⟩
            · exact h y hm
            · exact fun hcl => h c hc hcl
          · by_cases hsc : sc ≤ 30
            · rw [submit_accept_eq hfind hat htm hmem hsc]
              intro y hy
              rcases mem_updateFirst hy with hm | ⟨x, hx, rfl⟩
              · exact h y hm
              · intro _
                simp
            · rw [submit_reject_eq hfind hat htm hmem (by omega)]
              intro y hy
              rcases mem_updateFirst hy with hm | ⟨x, hx, rfl⟩
              · exact h y hm
              · intro hcl
                simp at hcl

theorem cleanedHasDate_assignRoute (now : Nat) (rid tid : String)
    {s : ManagerState} (h : cleanedHasDate s) :
    cleanedHasDate (assign_team_route now rid tid s).2 := by
  rcases hfind : s.cleanups.find? (fun c => c.report_id == rid) with _ | c
  · rw [assign_team_route, hfind]
    exact h
  · rcases htm : s.teams.find? (fun t => t.team_id == tid) with _ | tm
    · rw [assign_team_route, hfind, htm]
      exact h
    · rw [assign_team_route, hfind, htm]
      dsimp only
      by_cases hav : (tm.status == "available") = true
      · rw [if_pos hav]
        intro y hy
        rcases mem_updateFirst hy with hm | ⟨x, hx, rfl⟩
        · exact h y hm
        · intro hcl
          simp at hcl
      · rw [if_neg hav]
        exact h

theorem cleanedHasDate_verifyRoute (now : Nat) (rid email nt : String)
    (scored : List (String × Nat)) {s : ManagerState}
    (h : cleanedHasDate s) :
    cleanedHasDate (verify_cleanup_route now rid email nt scored s).2 := by
  rcases hfind : s.cleanups.find? (fun c => c.report_id == rid) with _ | c
  · rw [verify_cleanup_route, hfind]
    exact h
  · have hc : c ∈ s.cleanups := List.mem_of_find?_eq_some hfind
    rcases hat : c.assigned_team with _ | tid
    · rw [verify_cleanup_route, hfind]
      simp only [hat]
      exact h
    · rcases htm : s.teams.find? (fun t => t.team_id == tid) with _ | tm
      · rw [verify_cleanup_route, hfind]
        simp only [hat, htm]
        exact h
      · rcases hmem : tm.members.contains email with _ | _
        · rw [verify_cleanup_route, hfind]
          simp only [hat, htm, hmem, Bool.not_false]
          rw [if_pos trivial]
          exact h
        · rcases scored with _ | ⟨sp, sps⟩
          · rw [verify_cleanup_route, hfind]
            simp only [hat, htm, hmem, Bool.not_true]
            rw [if_neg Bool.false_ne_true]
            exact h
          · rw [verify_cleanup_route, hfind]
            simp only [hat, htm, hmem, Bool.not_true]
            rw [if_neg Bool.false_ne_true]
            by_cases havg : ((((sp :: sps).map Prod.snd).sum : ℚ) /
                (((sp :: sps).map Prod.snd).length : ℚ) < 30)
            · rw [if_pos havg]
              intro y hy
              rcases mem_updateFirst hy with hm | ⟨x, hx, rfl⟩
              · exact h y hm
              · intro _
                simp
            · rw [if_neg havg]
              intro y hy
              rcases mem_updateFirst hy with hm | ⟨x, hx, rfl⟩
              · exact h y hm
              · exact fun hcl => h c hc hcl

theorem cleanedHasDate_markCompleted (now : Nat) (rid : String)
    {s : ManagerState} (h : cleanedHasDate s) :
    cleanedHasDate (mark_completed_route now rid s).2 := by
  rcases hfind : s.cleanups.find? (fun c => c.report_id == rid) with _ | c
  · rw [mark_completed_route, hfind]
    exact h
  · rcases hat : c.assigned_team with _ | tid
    · rw [mark_completed_route, hfind]
      simp only [hat]
      exact h
    · rcases htm : s.teams.find? (fun t => t.team_id == tid) with _ | tm
      · rw [mark_completed_route, hfind]
        simp only [hat, htm]
        exact h
      · rw [mark_completed_route, hfind]
        simp only [hat, htm]
        intro y hy
        rcases mem_updateFirst hy with hm | ⟨x, hx, rfl⟩
        · exact h y hm
        · intro _
          simp


theorem busyIffTask_auto (now : Nat) (rid : String) {s : ManagerState}
    (h : busyIffTask s) : busyIffTask (auto_assign_team now rid s).2 := by
  rcases hfind : s.cleanups.find? (fun c => c.report_id == rid) with _ | c
  · rw [auto_assign_team, hfind]
    exact h
  · rcases hfil : s.teams.filter (fun t => t.status == "available") with _ | ⟨t, ts⟩
    · rw [auto_assign_team, hfind, hfil]
      exact h
    · rw [auto_assign_team, hfind, hfil]
      dsimp only
      intro y hy
      rcases mem_updateFirst hy with hm | ⟨x, hx, rfl⟩
      · exact h y hm
      · simp

theorem busyIffTask_create (now : Nat) (rid : String)
    (pr : PollutionReport) {s : ManagerState} (h : busyIffTask s) :
    busyIffTask (create_cleanup_report now rid pr s) := by
  apply busyIffTask_auto
  exact h

theorem busyIffTask_createTeam (now : Nat) (tid nm le : String)
    (ms : List String) {s : ManagerState} (h : busyIffTask s) :
    busyIffTask (create_team now tid nm le ms s) := by
  intro y hy
  rcases List.mem_append.1 hy with hm | hm
  · exact h y hm
  · simp at hm
    subst hm
    simp [CleanupTeam.new]

theorem busyIffTask_releaseTeam {now points : Nat} {tid : String}
    {teams : List CleanupTeam}
    (h : ∀ t ∈ teams, t.status = "busy" ↔ t.current_task ≠ none) :
    ∀ t ∈ releaseTeam now points tid teams,
      t.status = "busy" ↔ t.current_task ≠ none := by
  intro y hy
  rcases mem_updateFirst hy with hm | ⟨x, hx, rfl⟩
  · exact h y hm
  · simp

theorem busyIffTask_update (now : Nat) (rid st nt : String)
    (ph : List String) {s : ManagerState} (h : busyIffTask s) :
    busyIffTask (update_cleanup_status now rid st nt ph s).2 := by
  rcases hfind : s.cleanups.find? (fun c => c.report_id == rid) with _ | c
  · rw [update_cleanup_status, hfind]
    exact h
  · rw [update_cleanup_status, hfind]
    dsimp only
    rcases hat : c.assigned_team with _ | tid
    · by_cases h2 : (st == "cleaned") = true
      · rw [if_pos h2, if_pos h2]
        exact h
      · rw [if_neg h2, if_neg h2]
        exact h
    · by_cases h2 : (st == "cleaned") = true
      · rw [if_pos h2, if_pos h2]
        exact busyIffTask_releaseTeam h
      · rw [if_neg h2, if_neg h2]
        exact h

theorem busyIffTask_submit (now : Nat) (rid email nt : String)
    (ph : List String) (sc : Option Int) {s : ManagerState}
    (h : busyIffTask s) :
    busyIffTask (submit_cleanup_verification now rid email nt ph sc s).2 := by
  rcases hfind : s.cleanups.find? (fun c => c.report_id == rid) with _ | c
  · rw [submit_cleanup_verification, hfind]
    exact h
  · rcases hat : c.assigned_team with _ | tid
    · rcases sc with _ | sc
      · rw [submit_no_team_eq hfind hat]
        exact h
      · by_cases hsc : sc ≤ 30
        · rw [submit_no_team_accept_eq hfind hat hsc]
          exact h
        · rw [submit_no_team_reject_eq hfind hat (by omega)]
          exact h
    · rcases htm : s.teams.find? (fun t => t.team_id == tid) with _ | tm
      · rw [submit_team_missing_eq hfind hat htm]
        exact h
      · rcases hmem : tm.members.contains email with _ | _
        · rw [submit_unauthorized_eq hfind hat htm hmem]
          exact h
        · rcases sc with _ | sc
          · rw [submit_member_no_score_eq hfind hat htm hmem]
            exact h
          · by_cases hsc : sc ≤ 30
            · rw [submit_accept_eq hfind hat htm hmem hsc]
              exact busyIffTask_releaseTeam h
            · rw [submit_reject_eq hfind hat htm hmem (by omega)]
              exact h

theorem busyIffTask_assignRoute (now : Nat) (rid tid : String)
    {s : ManagerState} (h : busyIffTask s) :
    busyIffTask (assign_team_route now rid tid s).2 := by
  rcases hfind : s.cleanups.find? (fun c => c.report_id == rid) with _ | c
  · rw [assign_team_route, hfind]
    exact h
  · rcases htm : s.teams.find? (fun t => t.team_id == tid) with _ | tm
    · rw [assign_team_route, hfind, htm]
      exact h
    · rw [assign_team_route, hfind, htm]
      dsimp only
      by_cases hav : (tm.status == "available") = true
      · rw [if_pos hav]
        intro y hy
        rcases mem_updateFirst hy with hm | ⟨x, hx, rfl⟩
        · exact h y hm
        · simp
      · rw [if_neg hav]
        exact h

theorem busyIffTask_verifyRoute (now : Nat) (rid email nt : String)
    (scored : List (String × Nat)) {s : ManagerState}
    (h : busyIffTask s) :
    busyIffTask (verify_cleanup_route now rid email nt scored s).2 := by
  rcases hfind : s.cleanups.find? (fun c => c.report_id == rid) with _ | c
  · rw [verify_cleanup_route, hfind]
    exact h
  · rcases hat : c.assigned_team with _ | tid
    · rw [verify_cleanup_route, hfind]
      simp only [hat]
      exact h
    · rcases htm : s.teams.find? (fun t => t.team_id == tid) with _ | tm
      · rw [verify_cleanup_route, hfind]
        simp only [hat, htm]
        exact h
      · rcases hmem : tm.members.contains email with _ | _
        · rw [verify_cleanup_route, hfind]
          simp only [hat, htm, hmem, Bool.not_false]
          rw [if_pos trivial]
          exact h
        · rcases scored with _ | ⟨sp, sps⟩
          · rw [verify_cleanup_route, hfind]
            simp only [hat, htm, hmem, Bool.not_true]
            rw [if_neg Bool.false_ne_true]
            exact h
          · rw [verify_cleanup_route, hfind]
            simp only [hat, htm, hmem, Bool.not_true]
            rw [if_neg Bool.false_ne_true]
            by_cases havg : ((((sp :: sps).map Prod.snd).sum : ℚ) /
                (((sp :: sps).map Prod.snd).length : ℚ) < 30)
            · rw [if_pos havg]
              intro y hy
              rcases mem_updateFirst hy with hm | ⟨x, hx, rfl⟩
              · exact h y hm
              · simp
            · rw [if_neg havg]
              exact h

theorem busyIffTask_markCompleted (now : Nat) (rid : String)
    {s : ManagerState} (h : busyIffTask s) :
    busyIffTask (mark_completed_route now rid s).2 := by
  rcases hfind : s.cleanups.find? (fun c => c.report_id == rid) with _ | c
  · rw [mark_completed_route, hfind]
    exact h
  · rcases hat : c.assigned_team with _ | tid
    · rw [mark_completed_route, hfind]
      simp only [hat]
      exact h
    · rcases htm : s.teams.find? (fun t => t.team_id == tid) with _ | tm
      · rw [mark_completed_route, hfind]
        simp only [hat, htm]
        exact h
      · rw [mark_completed_route, hfind]
        simp only [hat, htm]
        intro y hy
        rcases mem_updateFirst hy with hm | ⟨x, hx, rfl⟩
        · exact h y hm
        · simp


/-- C9 (counterexample): `Report.from_dict` does not restore the stored
`timestamp` — it re-stamps with the current time — so the round trip at a
later time does not reproduce the record. -/
theorem round_trip_timestamp_counterexample :
    Report.from_dict 1 (Report.to_dict
        ⟨"beach.jpg", "12.9", "80.2", "Marina Beach", 82, "heavy litter",
         "Bob", "bob@example.com", 15, 0⟩) ≠
      ⟨"beach.jpg", "12.9", "80.2", "Marina Beach", 82, "heavy litter",
       "Bob", "bob@example.com", 15, 0⟩ := by
  decide

/-- C9 (amended): `CleanupReport` and `CleanupTeam` round-trip every field
value-for-value through their storage dictionaries (for task instances the
route-only extension fields are absent, as on every class instance); a
pollution `Report` round-trips every field except `timestamp`, which
`from_dict` regenerates as the current time instead of reading it back. -/
theorem round_trip_storage :
    (∀ c : CleanupReport, c.verification_analysis = [] →
      c.cleanup_score = none →
      CleanupReport.from_dict (CleanupReport.to_dict c) = c) ∧
    (∀ t : CleanupTeam,
      CleanupTeam.from_dict (CleanupTeam.to_dict t) = t) ∧
    (∀ (now : Nat) (r : Report),
      Report.from_dict now (Report.to_dict r) =
        { r with timestamp := now }) := by
  refine ⟨?_, ?_, ?_⟩
  · intro c h1 h2
    cases c
    simp only at h1 h2
    subst h1
    subst h2
    rfl
  · intro t
    cases t
    rfl
  · intro now r
    cases r
    rfl

/-- C9 (witness): the round trip evaluated on the concrete pending task
`taskR2`. -/
theorem round_trip_storage_witness :
    CleanupReport.from_dict (CleanupReport.to_dict taskR2) = taskR2 :=
  round_trip_storage.1 taskR2 rfl rfl

/-- C3: auto-assignment over the team pool.  With no available team the
operation returns no team id and leaves the state (hence a pending task)
untouched; with available teams it returns the team that is maximal in
the lexicographic key (rating first, cumulative cleanups as tie-break),
chosen deterministically as the first maximal element of the stored
order; on the spec's example pool {A(5,10), B(5,20), C(4,100)} it picks B
and moves the task to `in_progress`. -/
theorem auto_assign_selects_best :
    (∀ (now : Nat) (rid : String) (s : ManagerState),
      s.teams.filter (fun t => t.status == "available") = [] →
      auto_assign_team now rid s = (none, s)) ∧
    (∀ (now : Nat) (rid : String) (s : ManagerState) (c : CleanupReport)
        (t : CleanupTeam) (ts : List CleanupTeam),
      s.cleanups.find? (fun c' => c'.report_id == rid) = some c →
      s.teams.filter (fun t' => t'.status == "available") = t :: ts →
      (auto_assign_team now rid s).1 = some (maxByKey t ts).team_id ∧
      maxByKey t ts ∈ s.teams ∧ (maxByKey t ts).status = "available" ∧
      ∀ u ∈ s.teams, u.status = "available" → keyLE u (maxByKey t ts)) ∧
    ((auto_assign_team 5 "r2" stABC).1 = some "B" ∧
     (auto_assign_team 5 "r2" stABC).2.cleanups.map (fun c => c.status) =
       ["in_progress"] ∧
     auto_assign_team 5 "r2" stNoTeams = (none, stNoTeams)) := by
  refine ⟨?_, ?_, rfl, rfl, rfl⟩
  · intro now rid s hfil
    rcases hfind : s.cleanups.find? (fun c => c.report_id == rid) with _ | c
    · rw [auto_assign_team, hfind]
    · rw [auto_assign_team, hfind, hfil]
  · intro now rid s c t ts hfind hfil
    have hmem : ∀ u ∈ t :: ts, u ∈ s.teams ∧ u.status = "available" := by
      intro u hu
      rw [← hfil] at hu
      have h1 := List.mem_filter.1 hu
      exact ⟨h1.1, by simpa using h1.2⟩
    refine ⟨?_, ?_, ?_, ?_⟩
    · rw [auto_assign_team, hfind, hfil]
    · exact (hmem _ (maxByKey_mem t ts)).1
    · exact (hmem _ (maxByKey_mem t ts)).2
    · intro u hu hav
      apply maxByKey_le
      rw [← hfil]
      exact List.mem_filter.2 ⟨hu, by simpa using hav⟩

/-- C3 (witness): the no-available-team clause applied to `st1` (whose
only team is busy), and the selection clause applied to the example pool. -/
theorem auto_assign_selects_best_witness :
    auto_assign_team 7 "r1" st1 = (none, st1) ∧
    (auto_assign_team 5 "r2" stABC).1 =
      some (maxByKey teamA [teamB, teamC]).team_id :=
  ⟨auto_assign_selects_best.1 7 "r1" st1 rfl,
   (auto_assign_selects_best.2.1 5 "r2" stABC taskR2 teamA [teamB, teamC]
      rfl rfl).1⟩


/-- C2 (counterexample): on a task whose `assigned_team` is null the
membership precondition is never checked — the submission from a complete
stranger reports success and mutates the task (notes and photos are
overwritten), contradicting "either precondition fails ⟹ rejection and
no state change". -/
theorem verification_auth_counterexample :
    taskR2.assigned_team = none ∧
    (submit_cleanup_verification 5 "r2" "stranger@example.com" "hacked"
        ["x.jpg"] none stNoTeams).1.success = true ∧
    (submit_cleanup_verification 5 "r2" "stranger@example.com" "hacked"
        ["x.jpg"] none stNoTeams).2.cleanups.map
      (fun c => (c.cleanup_notes, c.verification_photos)) =
      [("hacked", ["x.jpg"])] := by
  refine ⟨rfl, rfl, rfl⟩

/-- C2 (amended): the authorization check runs only when the task has a
non-null `assigned_team`; in that case, if the team id resolves to no
stored team or the submitter is not in its member set, the operation
returns the unauthorized rejection message and leaves the state exactly
unchanged.  A task with a null `assigned_team` is processed without any
membership check. -/
theorem verification_auth_rejection (now : Nat)
    (rid email notes : String) (photos : List String) (sc : Option Int)
    (s : ManagerState) (c : CleanupReport) (tid : String)
    (hfind : s.cleanups.find? (fun c' => c'.report_id == rid) = some c)
    (hteam : c.assigned_team = some tid)
    (hbad : s.teams.find? (fun t => t.team_id == tid) = none ∨
      ∃ tm, s.teams.find? (fun t => t.team_id == tid) = some tm ∧
        tm.members.contains email = false) :
    submit_cleanup_verification now rid email notes photos sc s =
      (⟨false, "Unauthorized: You are not assigned to this cleanup task",
        none, none, none⟩, s) := by
  rcases hbad with h | ⟨tm, htm, hmem⟩
  · exact submit_team_missing_eq hfind hteam h
  · exact submit_unauthorized_eq hfind hteam htm hmem

/-- C2 (witness): the rejection evaluated on `st1` for a submitter outside
team T's member set. -/
theorem verification_auth_rejection_witness :
    submit_cleanup_verification 5 "r1" "eve@example.com" "n" ["p.jpg"]
        (some 10) st1 =
      (⟨false, "Unauthorized: You are not assigned to this cleanup task",
        none, none, none⟩, st1) :=
  verification_auth_rejection 5 "r1" "eve@example.com" "n" ["p.jpg"]
    (some 10) st1 taskR1 "T" rfl rfl (Or.inr ⟨teamT, rfl, rfl⟩)


/-- C1 (counterexample): a verification with mean per-photo score exactly
30 does not leave the task `in_progress` — the model-level acceptance
test is `cleanup_score <= 30`, so score 30 closes the task (`cleaned`)
and releases the team. -/
theorem verification_threshold_counterexample :
    ((submit_cleanup_verification 5 "r1" "alice@example.com" "done"
        ["after.jpg"] (some 30) st1).2.cleanups.map (fun c => c.status)) =
      ["cleaned"] ∧
    ((submit_cleanup_verification 5 "r1" "alice@example.com" "done"
        ["after.jpg"] (some 30) st1).2.teams.map
      (fun t => (t.status, t.current_task))) = [("available", none)] := by
  refine ⟨rfl, rfl⟩

/-- C1 (amended): for an authorized submission on a task assigned to an
existing team, a mean score of at most 30 (so 29 and also 30) closes the
task — status `cleaned`, completion date stamped, severity-derived points
stored — and releases the team with its counters incremented; a mean
score of at least 31 leaves the stored task `in_progress`, appends the
rejection annotation with the numeric score to the freshly stored notes,
and leaves the team collection exactly unchanged (team still `busy`,
`current_task` intact). -/
theorem verification_threshold (now : Nat) (rid email notes : String)
    (photos : List String) (sc : Int) (s : ManagerState)
    (c : CleanupReport) (tid : String) (tm : CleanupTeam)
    (hfind : s.cleanups.find? (fun c' => c'.report_id == rid) = some c)
    (hteam : c.assigned_team = some tid)
    (htm : s.teams.find? (fun t => t.team_id == tid) = some tm)
    (hmem : tm.members.contains email = true) :
    (30 < sc →
      (submit_cleanup_verification now rid email notes photos (some sc)
          s).2.teams = s.teams ∧
      (submit_cleanup_verification now rid email notes photos (some sc)
          s).2.cleanups.find? (fun c' => c'.report_id == rid) =
        some { c with
            cleanup_notes := notes ++ "\n[VERIFICATION FAILED] Score: " ++
              toString sc ++ ". Cleanup incomplete, task continues.",
            verification_photos := photos, updated_at := now,
            status := "in_progress" }) ∧
    (sc ≤ 30 →
      (submit_cleanup_verification now rid email notes photos (some sc)
          s).2.cleanups.find? (fun c' => c'.report_id == rid) =
        some { c with
            cleanup_notes := notes, verification_photos := photos,
            updated_at := now, status := "cleaned",
            completion_date := some now,
            cleanup_points := 25 + c.pollution_report.score / 10 } ∧
      (submit_cleanup_verification now rid email notes photos (some sc)
          s).2.teams.find? (fun t => t.team_id == tid) =
        some { tm with
            status := "available", current_task := none,
            total_cleanups := tm.total_cleanups + 1,
            total_points := tm.total_points +
              (25 + c.pollution_report.score / 10),
            last_activity := now }) := by
  have hpc := List.find?_some hfind
  have hpt := List.find?_some htm
  constructor
  · intro hsc
    rw [submit_reject_eq hfind hteam htm hmem hsc]
    exact ⟨rfl, find?_updateFirst hfind (by simpa using hpc)⟩
  · intro hsc
    rw [submit_accept_eq hfind hteam htm hmem hsc]
    refine ⟨find?_updateFirst hfind (by simpa using hpc), ?_⟩
    exact find?_updateFirst htm (by simpa using hpt)

/-- C1 (witness): the accepting branch at score 29 on `st1` — task
closed with 33 points (severity 82), team T released. -/
theorem verification_threshold_witness :
    (submit_cleanup_verification 5 "r1" "alice@example.com" "done"
        ["after.jpg"] (some 29) st1).2.cleanups.find?
      (fun c' => c'.report_id == "r1") =
      some { taskR1 with
          cleanup_notes := "done", verification_photos := ["after.jpg"],
          updated_at := 5, status := "cleaned",
          completion_date := some 5, cleanup_points := 33 } ∧
    (submit_cleanup_verification 5 "r1" "alice@example.com" "done"
        ["after.jpg"] (some 29) st1).2.teams.find?
      (fun t => t.team_id == "T") =
      some { teamT with
          status := "available", current_task := none,
          total_cleanups := 4, total_points := 73, last_activity := 5 } :=
  (verification_threshold 5 "r1" "alice@example.com" "done" ["after.jpg"]
    29 st1 taskR1 "T" teamT rfl rfl rfl rfl).2 (by decide)


/-- C4 (counterexample): the entry into `cleaned` does not append the
notes — `update_cleanup_status` overwrites `cleanup_notes` with the
supplied string, discarding the prior "old notes". -/
theorem cleaned_entry_notes_counterexample :
    taskR1.cleanup_notes = "old notes" ∧
    ((update_cleanup_status 5 "r1" "cleaned" "swept" [] st1).2.cleanups.map
      (fun c => c.cleanup_notes)) = ["swept"] := by
  refine ⟨rfl, rfl⟩

/-- C4 (amended): a status update into `cleaned` on a task with embedded
report score s stamps the completion timestamp, stores cleanup points
`25 + s / 10` (33 for s = 82), releases the assigned team — status
`available`, `current_task` null, cumulative cleanup count incremented by
one and cumulative points incremented by the award — and overwrites (not
appends) the task's notes with the supplied text. -/
theorem cleaned_entry_actions (now : Nat) (rid notes : String)
    (photos : List String) (s : ManagerState) (c : CleanupReport)
    (tid : String) (tm : CleanupTeam)
    (hfind : s.cleanups.find? (fun c' => c'.report_id == rid) = some c)
    (hteam : c.assigned_team = some tid)
    (htm : s.teams.find? (fun t => t.team_id == tid) = some tm) :
    (update_cleanup_status now rid "cleaned" notes photos s).1 = true ∧
    (update_cleanup_status now rid "cleaned" notes photos
        s).2.cleanups.find? (fun c' => c'.report_id == rid) =
      some { c with
          status := "cleaned", cleanup_notes := notes, updated_at := now,
          verification_photos := c.verification_photos ++ photos,
          completion_date := some now,
          cleanup_points := 25 + c.pollution_report.score / 10 } ∧
    (update_cleanup_status now rid "cleaned" notes photos
        s).2.teams.find? (fun t => t.team_id == tid) =
      some { tm with
          status := "available", current_task := none,
          total_cleanups := tm.total_cleanups + 1,
          total_points := tm.total_points +
            (25 + c.pollution_report.score / 10),
          last_activity := now } := by
  have hpc := List.find?_some hfind
  have hpt := List.find?_some htm
  rw [update_cleaned_eq hfind hteam]
  exact ⟨rfl, find?_updateFirst hfind (by simpa using hpc),
    find?_updateFirst htm (by simpa using hpt)⟩

/-- C4 (witness): the entry actions evaluated on `st1` (report score 82,
so 33 points; team T gains a cleanup and 33 points). -/
theorem cleaned_entry_actions_witness :
    (update_cleanup_status 5 "r1" "cleaned" "swept" ["after.jpg"]
        st1).2.cleanups.find? (fun c' => c'.report_id == "r1") =
      some { taskR1 with
          status := "cleaned", cleanup_notes := "swept", updated_at := 5,
          verification_photos := ["before.jpg", "after.jpg"],
          completion_date := some 5, cleanup_points := 33 } ∧
    (update_cleanup_status 5 "r1" "cleaned" "swept" ["after.jpg"]
        st1).2.teams.find? (fun t => t.team_id == "T") =
      some { teamT with
          status := "available", current_task := none,
          total_cleanups := 4, total_points := 73, last_activity := 5 } :=
  (cleaned_entry_actions 5 "r1" "swept" ["after.jpg"] st1 taskR1 "T"
    teamT rfl rfl rfl).2


/-- C7 (counterexample): the generic status update does accept an
arbitrary status without validation and extends the photo list, but it
does not keep the notes as an append-only log — the prior "old notes" are
discarded and replaced by the supplied string. -/
theorem generic_update_counterexample :
    taskR1.cleanup_notes = "old notes" ∧
    (update_cleanup_status 5 "r1" "not_a_real_status" "second note"
        ["p2.jpg"] st1).1 = true ∧
    ((update_cleanup_status 5 "r1" "not_a_real_status" "second note"
        ["p2.jpg"] st1).2.cleanups.map
      (fun c => (c.status, c.cleanup_notes, c.verification_photos))) =
      [("not_a_real_status", "second note", ["before.jpg", "p2.jpg"])] := by
  refine ⟨rfl, rfl, rfl⟩

/-- C7 (amended): for any existing task, any target status string, any
notes and any photo list, the generic status update reports success
without validating reachability, stores the requested status verbatim,
appends the photos to the existing verification-photo list, and
overwrites the notes with the supplied string (the notes field is
replaced, not treated as an append-only log). -/
theorem generic_update_behavior (now : Nat) (rid status notes : String)
    (photos : List String) (s : ManagerState) (c : CleanupReport)
    (hfind : s.cleanups.find? (fun c' => c'.report_id == rid) = some c) :
    (update_cleanup_status now rid status notes photos s).1 = true ∧
    ∃ c', (update_cleanup_status now rid status notes photos
        s).2.cleanups.find? (fun c' => c'.report_id == rid) = some c' ∧
      c'.status = status ∧ c'.cleanup_notes = notes ∧
      c'.verification_photos = c.verification_photos ++ photos ∧
      c'.updated_at = now :=
  update_found_fields hfind

/-- C7 (witness): the generic update evaluated on `st1` with the
unvalidated status string `"verified"`. -/
theorem generic_update_behavior_witness :
    (update_cleanup_status 9 "r1" "verified" "note" ["v.jpg"] st1).1 =
      true ∧
    ∃ c', (update_cleanup_status 9 "r1" "verified" "note" ["v.jpg"]
        st1).2.cleanups.find? (fun c' => c'.report_id == "r1") = some c' ∧
      c'.status = "verified" ∧ c'.cleanup_notes = "note" ∧
      c'.verification_photos = taskR1.verification_photos ++ ["v.jpg"] ∧
      c'.updated_at = 9 :=
  generic_update_behavior 9 "r1" "verified" "note" ["v.jpg"] st1 taskR1
    rfl


/-- C8 (counterexample): repeating the `cleaned` status update with empty
notes is not idempotent — on `st1` (task score 82, team T with 3 cleanups
and 40 points) the first call at time 5 stores completion date 5 and
counters (4, 73), but the repeat at time 9 overwrites the completion date
with 9 and increments the already-released team's counters again to
(5, 106). -/
theorem status_update_idempotence_counterexample :
    ((update_cleanup_status 5 "r1" "cleaned" "" [] st1).2.cleanups.map
      (fun c => c.completion_date)) = [some 5] ∧
    ((update_cleanup_status 5 "r1" "cleaned" "" [] st1).2.teams.map
      (fun t => (t.total_cleanups, t.total_points))) = [(4, 73)] ∧
    ((update_cleanup_status 9 "r1" "cleaned" "" []
        (update_cleanup_status 5 "r1" "cleaned" "" [] st1).2).2.cleanups.map
      (fun c => c.completion_date)) = [some 9] ∧
    ((update_cleanup_status 9 "r1" "cleaned" "" []
        (update_cleanup_status 5 "r1" "cleaned" "" [] st1).2).2.teams.map
      (fun t => (t.total_cleanups, t.total_points))) = [(5, 106)] := by
  refine ⟨rfl, rfl, rfl, rfl⟩

/-- C8 (amended): calling the status update twice with target `cleaned`
and empty notes is not idempotent: because the task's `assigned_team`
reference is never cleared, the second call overwrites `completion_date`
with its own (different) timestamp and increments the released team's
cumulative-cleanup and cumulative-points counters a second time. -/
theorem status_update_not_idempotent (t1 t2 : Nat) (rid : String)
    (s : ManagerState) (c : CleanupReport) (tid : String)
    (tm : CleanupTeam)
    (hfind : s.cleanups.find? (fun c' => c'.report_id == rid) = some c)
    (hteam : c.assigned_team = some tid)
    (htm : s.teams.find? (fun t => t.team_id == tid) = some tm) :
    (∃ c', (update_cleanup_status t2 rid "cleaned" "" []
        (update_cleanup_status t1 rid "cleaned" "" [] s).2).2.cleanups.find?
        (fun c' => c'.report_id == rid) = some c' ∧
      c'.completion_date = some t2 ∧
      c'.cleanup_points = 25 + c.pollution_report.score / 10) ∧
    (update_cleanup_status t2 rid "cleaned" "" []
        (update_cleanup_status t1 rid "cleaned" "" [] s).2).2.teams.find?
      (fun t => t.team_id == tid) =
      some { tm with
          status := "available", current_task := none,
          total_cleanups := tm.total_cleanups + 1 + 1,
          total_points := tm.total_points +
            (25 + c.pollution_report.score / 10) +
            (25 + c.pollution_report.score / 10),
          last_activity := t2 } := by
  have hpc := List.find?_some hfind
  have hpt := List.find?_some htm
  have h1 := @update_cleaned_eq t1 rid "" [] s c tid hfind hteam
  have hfind1 : (update_cleanup_status t1 rid "cleaned" "" []
      s).2.cleanups.find? (fun c' => c'.report_id == rid) =
      some { c with
          status := "cleaned", cleanup_notes := "", updated_at := t1,
          verification_photos := c.verification_photos ++ [],
          completion_date := some t1,
          cleanup_points := 25 + c.pollution_report.score / 10 } := by
    rw [h1]
    exact find?_updateFirst hfind (by simpa using hpc)
  have htm1 : (update_cleanup_status t1 rid "cleaned" "" []
      s).2.teams.find? (fun t => t.team_id == tid) =
      some { tm with
          status := "available", current_task := none,
          total_cleanups := tm.total_cleanups + 1,
          total_points := tm.total_points +
            (25 + c.pollution_report.score / 10),
          last_activity := t1 } := by
    rw [h1]
    exact find?_updateFirst htm (by simpa using hpt)
  have h2 := @update_cleaned_eq t2 rid "" []
    ((update_cleanup_status t1 rid "cleaned" "" [] s).2)
    ({ c with
        status := "cleaned", cleanup_notes := "", updated_at := t1,
        verification_photos := c.verification_photos ++ [],
        completion_date := some t1,
        cleanup_points := 25 + c.pollution_report.score / 10 }) tid
    hfind1 hteam
  rw [h2]
  constructor
  · exact ⟨_, find?_updateFirst hfind1 (by simpa using hpc), rfl, rfl⟩
  · rw [releaseTeam]
    exact find?_updateFirst htm1 (by simpa using hpt)

/-- C8 (witness): the non-idempotence facts evaluated on `st1` with the
two calls at times 5 and 9. -/
theorem status_update_not_idempotent_witness :
    (∃ c', (update_cleanup_status 9 "r1" "cleaned" "" []
        (update_cleanup_status 5 "r1" "cleaned" "" [] st1).2).2.cleanups.find?
        (fun c' => c'.report_id == "r1") = some c' ∧
      c'.completion_date = some 9 ∧ c'.cleanup_points = 33) ∧
    (update_cleanup_status 9 "r1" "cleaned" "" []
        (update_cleanup_status 5 "r1" "cleaned" "" [] st1).2).2.teams.find?
      (fun t => t.team_id == "T") =
      some { teamT with
          status := "available", current_task := none,
          total_cleanups := 5, total_points := 106,
          last_activity := 9 } :=
  status_update_not_idempotent 5 9 "r1" st1 taskR1 "T" teamT rfl rfl rfl


/-- C5 (counterexample): the biconditional fails — a generic status
update straight to `verified` on a pending task sets the status without
ever stamping `completion_date`, so a `verified` task can have a null
completion date. -/
theorem status_iff_completion_counterexample :
    ¬ statusIffDate (update_cleanup_status 5 "r2" "verified" "" []
        stNoTeams).2 := by
  unfold statusIffDate
  decide

/-- C5 (amended): the forward half for `cleaned` is a real invariant:
in any state where every `cleaned` task carries a completion date, every
engine operation (creation, team creation, auto- and manual assignment,
generic status update, verification submission, route verification,
manual completion) preserves that property — every path into `cleaned`
stamps `completion_date` and no path clears it.  The full biconditional
with `verified` is not preserved. -/
theorem cleaned_implies_completion_invariant (op : Op) (s : ManagerState)
    (h : cleanedHasDate s) : cleanedHasDate (applyOp op s) := by
  cases op with
  | create now rid pr => exact cleanedHasDate_create now rid pr h
  | createTeam now tid nm le ms =>
      exact cleanedHasDate_createTeam now tid nm le ms h
  | autoAssign now rid => exact cleanedHasDate_auto now rid h
  | updateStatus now rid st nt ph =>
      exact cleanedHasDate_update now rid st nt ph h
  | submitVerif now rid em nt ph sc =>
      exact cleanedHasDate_submit now rid em nt ph sc h
  | assignTeamRoute now rid tid =>
      exact cleanedHasDate_assignRoute now rid tid h
  | verifyRoute now rid em nt sc =>
      exact cleanedHasDate_verifyRoute now rid em nt sc h
  | markCompleted now rid => exact cleanedHasDate_markCompleted now rid h

/-- C5 (witness): preservation evaluated across a concrete `cleaned`
status update on `st1`. -/
theorem cleaned_implies_completion_invariant_witness :
    cleanedHasDate (applyOp (.updateStatus 5 "r1" "cleaned" "done" [])
      st1) :=
  cleaned_implies_completion_invariant
    (.updateStatus 5 "r1" "cleaned" "done" []) st1
    (by unfold cleanedHasDate; decide)

/-- C6 (counterexample): the back-reference clause is not an invariant.
`st2` satisfies it (team T busy on task r1, which references T), but the
manual-assignment route happily re-assigns the already-assigned r1 to the
available team U, leaving T busy with a `current_task` whose
`assigned_team` now names U. -/
theorem busy_team_backref_counterexample :
    busyBackRef st2 ∧
    ¬ busyBackRef (assign_team_route 5 "r1" "U" st2).2 := by
  unfold busyBackRef
  refine ⟨by decide, by decide⟩

/-- C6 (amended): the first half of the claim is a real invariant: in
any state where each team is `busy` exactly when its `current_task` is
set, every engine operation preserves that equivalence (assignment sets
both together; release clears both together).  The back-reference clause
— that the referenced task's `assigned_team` equals the busy team's id —
is not preserved, because re-assignment of an already-assigned task never
releases the previous team. -/
theorem busy_iff_current_task_invariant (op : Op) (s : ManagerState)
    (h : busyIffTask s) : busyIffTask (applyOp op s) := by
  cases op with
  | create now rid pr => exact busyIffTask_create now rid pr h
  | createTeam now tid nm le ms =>
      exact busyIffTask_createTeam now tid nm le ms h
  | autoAssign now rid => exact busyIffTask_auto now rid h
  | updateStatus now rid st nt ph =>
      exact busyIffTask_update now rid st nt ph h
  | submitVerif now rid em nt ph sc =>
      exact busyIffTask_submit now rid em nt ph sc h
  | assignTeamRoute now rid tid =>
      exact busyIffTask_assignRoute now rid tid h
  | verifyRoute now rid em nt sc =>
      exact busyIffTask_verifyRoute now rid em nt sc h
  | markCompleted now rid => exact busyIffTask_markCompleted now rid h

/-- C6 (witness): preservation evaluated across the concrete
auto-assignment on the example pool. -/
theorem busy_iff_current_task_invariant_witness :
    busyIffTask (applyOp (.autoAssign 5 "r2") stABC) :=
  busy_iff_current_task_invariant (.autoAssign 5 "r2") stABC
    (by unfold busyIffTask; decide)


/-- C10: every verification submission that reaches the storage step —
model-level with or without an assigned team, for any score outcome, and
the route handler in both its accepted and insufficient branches — stores
exactly the newly submitted photo list on the task, discarding photos
from earlier submissions; the generic status update, in contrast, extends
the stored list. -/
theorem verification_photos_replaced :
    (∀ (now : Nat) (rid email notes : String) (photos : List String)
        (sc : Option Int) (s : ManagerState) (c : CleanupReport)
        (tid : String) (tm : CleanupTeam),
      s.cleanups.find? (fun c' => c'.report_id == rid) = some c →
      c.assigned_team = some tid →
      s.teams.find? (fun t => t.team_id == tid) = some tm →
      tm.members.contains email = true →
      ∃ c', (submit_cleanup_verification now rid email notes photos sc
          s).2.cleanups.find? (fun c' => c'.report_id == rid) = some c' ∧
        c'.verification_photos = photos) ∧
    (∀ (now : Nat) (rid email notes : String) (photos : List String)
        (sc : Option Int) (s : ManagerState) (c : CleanupReport),
      s.cleanups.find? (fun c' => c'.report_id == rid) = some c →
      c.assigned_team = none →
      ∃ c', (submit_cleanup_verification now rid email notes photos sc
          s).2.cleanups.find? (fun c' => c'.report_id == rid) = some c' ∧
        c'.verification_photos = photos) ∧
    (∀ (now : Nat) (rid email notes : String) (sp : String × Nat)
        (sps : List (String × Nat)) (s : ManagerState)
        (c : CleanupReport) (tid : String) (tm : CleanupTeam),
      s.cleanups.find? (fun c' => c'.report_id == rid) = some c →
      c.assigned_team = some tid →
      s.teams.find? (fun t => t.team_id == tid) = some tm →
      tm.members.contains email = true →
      ∃ c', (verify_cleanup_route now rid email notes (sp :: sps)
          s).2.cleanups.find? (fun c' => c'.report_id == rid) = some c' ∧
        c'.verification_photos = (sp :: sps).map Prod.fst) ∧
    (∀ (now : Nat) (rid status notes : String) (photos : List String)
        (s : ManagerState) (c : CleanupReport),
      s.cleanups.find? (fun c' => c'.report_id == rid) = some c →
      ∃ c', (update_cleanup_status now rid status notes photos
          s).2.cleanups.find? (fun c' => c'.report_id == rid) = some c' ∧
        c'.verification_photos = c.verification_photos ++ photos) := by
  refine ⟨?_, ?_, ?_, ?_⟩
  · intro now rid email notes photos sc s c tid tm hfind hteam htm hmem
    have hpc := List.find?_some hfind
    rcases sc with _ | sc
    · rw [submit_member_no_score_eq hfind hteam htm hmem]
      exact ⟨_, find?_updateFirst hfind (by simpa using hpc), rfl⟩
    · by_cases hsc : sc ≤ 30
      · rw [submit_accept_eq hfind hteam htm hmem hsc]
        exact ⟨_, find?_updateFirst hfind (by simpa using hpc), rfl⟩
      · rw [submit_reject_eq hfind hteam htm hmem (by omega)]
        exact ⟨_, find?_updateFirst hfind (by simpa using hpc), rfl⟩
  · intro now rid email notes photos sc s c hfind hteam
    have hpc := List.find?_some hfind
    rcases sc with _ | sc
    · rw [submit_no_team_eq hfind hteam]
      exact ⟨_, find?_updateFirst hfind (by simpa using hpc), rfl⟩
    · by_cases hsc : sc ≤ 30
      · rw [submit_no_team_accept_eq hfind hteam hsc]
        exact ⟨_, find?_updateFirst hfind (by simpa using hpc), rfl⟩
      · rw [submit_no_team_reject_eq hfind hteam (by omega)]
        exact ⟨_, find?_updateFirst hfind (by simpa using hpc), rfl⟩
  · intro now rid email notes sp sps s c tid tm hfind hteam htm hmem
    have hpc := List.find?_some hfind
    rw [verify_cleanup_route, hfind]
    simp only [hteam, htm, hmem, Bool.not_true]
    rw [if_neg Bool.false_ne_true]
    by_cases havg : ((((sp :: sps).map Prod.snd).sum : ℚ) /
        (((sp :: sps).map Prod.snd).length : ℚ) < 30)
    · rw [if_pos havg]
      exact ⟨_, find?_updateFirst hfind (by simpa using hpc), rfl⟩
    · rw [if_neg havg]
      exact ⟨_, find?_updateFirst hfind (by simpa using hpc), rfl⟩
  · intro now rid status notes photos s c hfind
    obtain ⟨-, c', hfc, -, -, hph, -⟩ := update_found_fields hfind
    exact ⟨c', hfc, hph⟩

/-- C10 (witness): replacement evaluated on `st1`, whose task already
stores the photo `before.jpg` from an earlier submission. -/
theorem verification_photos_replaced_witness :
    ∃ c', (submit_cleanup_verification 5 "r1" "alice@example.com" "n"
        ["new1.jpg", "new2.jpg"] (some 40) st1).2.cleanups.find?
      (fun c' => c'.report_id == "r1") = some c' ∧
      c'.verification_photos = ["new1.jpg", "new2.jpg"] :=
  verification_photos_replaced.1 5 "r1" "alice@example.com" "n"
    ["new1.jpg", "new2.jpg"] (some 40) st1 taskR1 "T" teamT rfl rfl rfl
    rfl

end EcoGuard
